import Mathlib

/-!
Verification of the bioRxiv preprint-search MCP server (`src/biorxiv`) and the
bio-part-search server (`src/bio-part-search`).

The TypeScript source is shallowly embedded: strings are Lean `String`s
(JS `toLowerCase`, `trim`, `includes`, `split(/\s+/)` and `replace(/ /g,'_')`
are modelled on the underlying character lists), JS numbers used by the
relevance scorer are `ℚ` (the scorer adds the literal `1.5`), fallible
upstream calls are an explicit environment `Request → Except ApiError
ApiResponse`, and the orchestration in `BioRxivApiClient.searchPapers`
becomes a pure function that also records the trace of issued requests.
`Array.prototype.sort` with comparator `(a, b) => b.score - a.score` is a
stable descending sort (stability is required by the ECMAScript spec); it is
modelled by `List.insertionSort` with the reflexive-total relation
`scoreGE a b := b.2 ≤ a.2`, which is stable with exactly the same tie
behaviour, so the result list is the same.
-/

open List

/-- JS `s.toLowerCase()` (ASCII-faithful): lower-case every character. -/
def lowerStr (s : String) : String := ⟨s.data.map Char.toLower⟩

/-- JS `s.includes(pat)`: `pat` occurs as a contiguous substring of `s`. -/
def containsStr (s pat : String) : Bool := decide (pat.data <:+: s.data)

/-- Strip leading whitespace, then trailing whitespace, from a character list. -/
def trimChars (l : List Char) : List Char :=
  ((l.dropWhile Char.isWhitespace).reverse.dropWhile Char.isWhitespace).reverse

/-- JS `s.trim()`: remove whitespace from both ends. -/
def jsTrim (s : String) : String := ⟨trimChars s.data⟩

/-- JS `s.replace(/ /g, '_')`: replace every space by an underscore. -/
def underscore (s : String) : String :=
  ⟨s.data.map (fun c => if c = ' ' then '_' else c)⟩

/-- JS `x || dflt` for an optional string: `dflt` when absent or empty. -/
def strOr (o : Option String) (dflt : String) : String :=
  match o with
  | some s => if s.data.isEmpty then dflt else s
  | none => dflt

/-- JS truthiness of an optional string: `none` when absent or empty. -/
def optNonempty (o : Option String) : Option String :=
  match o with
  | some s => if s.data.isEmpty then none else some s
  | none => none

/-- Split a character list at whitespace characters (accumulator holds the
current word reversed); models JS `split(/\s+/)` up to empty pieces, which
the caller filters away by the `length > 2` test. -/
def wordsAux (acc : List Char) : List Char → List (List Char)
  | [] => [acc.reverse]
  | c :: cs =>
    if c.isWhitespace then acc.reverse :: wordsAux [] cs
    else wordsAux (c :: acc) cs

/-- The query words used by the scorer:
`query.toLowerCase().split(/\s+/).filter(word => word.length > 2)`. -/
def queryWords (query : String) : List String :=
  ((wordsAux [] (lowerStr query).data).map (fun cs => (⟨cs⟩ : String))).filter
    (fun w => decide (2 < w.length))

/-- One preprint record, with exactly the fields the scorer reads
(a field absent in the JSON is the empty string, matching `paper.f || ""`). -/
structure Paper where
  doi : String
  title : String
  authors : String
  abstract : String
  category : String
  author_corresponding : String
  author_corresponding_institution : String
  date : String
deriving DecidableEq

/-- One entry of the `messages` array of the upstream response envelope
(an absent field is `""` / `0`). -/
structure Msg where
  status : String
  total : Nat
  cursor : String
  text : String
deriving DecidableEq

/-- The upstream response envelope; `collection = none` models a response
without a `collection` array. -/
structure ApiResponse where
  messages : List Msg
  collection : Option (List Paper)
deriving DecidableEq

/-- Relevance score of one record against the query, translated line by line
from the scoring block of `searchPapers` (identical in the primary and the
fallback pass): exact full-query substring hits on seven fields, then
per-word hits for each query word longer than two characters. -/
def scorePaper (query : String) (p : Paper) : ℚ :=
  let title := lowerStr p.title
  let abstract := lowerStr p.abstract
  let authors := lowerStr p.authors
  let category := lowerStr p.category
  let doi := lowerStr p.doi
  let authorCorresponding := lowerStr p.author_corresponding
  let institution := lowerStr p.author_corresponding_institution
  let queryLower := lowerStr query
  let exact : ℚ :=
    (if containsStr title queryLower then 100 else 0)
    + (if containsStr abstract queryLower then 50 else 0)
    + (if containsStr authors queryLower then 30 else 0)
    + (if containsStr category queryLower then 40 else 0)
    + (if containsStr doi queryLower then 25 else 0)
    + (if containsStr authorCorresponding queryLower then 20 else 0)
    + (if containsStr institution queryLower then 15 else 0)
  (queryWords query).foldl (fun s word =>
    s + ((if containsStr title word then 10 else 0)
    + (if containsStr abstract word then 5 else 0)
    + (if containsStr authors word then 3 else 0)
    + (if containsStr category word then 4 else 0)
    + (if containsStr authorCorresponding word then 2 else 0)
    + (if containsStr institution word then 1.5 else 0))) exact

/-- The exact-phrase contribution of the score, as the claim states it:
100 for title, 50 for abstract, 40 for category, 30 for authors, 25 for doi,
20 for corresponding author, 15 for institution, all case-insensitive. -/
def exactHitScore (query : String) (p : Paper) : ℚ :=
  (if containsStr (lowerStr p.title) (lowerStr query) then 100 else 0)
  + (if containsStr (lowerStr p.abstract) (lowerStr query) then 50 else 0)
  + (if containsStr (lowerStr p.category) (lowerStr query) then 40 else 0)
  + (if containsStr (lowerStr p.authors) (lowerStr query) then 30 else 0)
  + (if containsStr (lowerStr p.doi) (lowerStr query) then 25 else 0)
  + (if containsStr (lowerStr p.author_corresponding) (lowerStr query) then 20 else 0)
  + (if containsStr (lowerStr p.author_corresponding_institution) (lowerStr query) then 15 else 0)

/-- The per-word contribution of one query word, as the claim states it:
10 per title hit, 5 per abstract hit, 4 per category hit, 3 per authors hit,
2 per corresponding-author hit, 1.5 per institution hit, and no per-word
doi contribution. -/
def wordHitScore (p : Paper) (word : String) : ℚ :=
  (if containsStr (lowerStr p.title) word then 10 else 0)
  + (if containsStr (lowerStr p.abstract) word then 5 else 0)
  + (if containsStr (lowerStr p.category) word then 4 else 0)
  + (if containsStr (lowerStr p.authors) word then 3 else 0)
  + (if containsStr (lowerStr p.author_corresponding) word then 2 else 0)
  + (if containsStr (lowerStr p.author_corresponding_institution) word then 1.5 else 0)

/-- The score as the claim's formula: exact-phrase sum plus the sum over all
query words of the per-word contributions, uncapped. -/
def scoreSpec (query : String) (p : Paper) : ℚ :=
  exactHitScore query p + ((queryWords query).map (wordHitScore p)).sum

theorem foldl_add_map {α : Type} (f : α → ℚ) (l : List α) (a : ℚ) :
    l.foldl (fun s x => s + f x) a = a + (l.map f).sum := by
  induction l generalizing a with
  | nil => simp
  | cons x xs ih => simp [ih, add_assoc]

theorem wordHitScore_nonneg (p : Paper) (w : String) : 0 ≤ wordHitScore p w := by
  unfold wordHitScore
  have h32 : (0 : ℚ) ≤ 1.5 := by norm_num
  positivity

theorem exactHitScore_nonneg (q : String) (p : Paper) : 0 ≤ exactHitScore q p := by
  unfold exactHitScore
  positivity

theorem scoreSpec_nonneg (q : String) (p : Paper) : 0 ≤ scoreSpec q p := by
  unfold scoreSpec
  refine add_nonneg (exactHitScore_nonneg q p) (List.sum_nonneg ?_)
  intro x hx
  obtain ⟨w, _, rfl⟩ := List.mem_map.mp hx
  exact wordHitScore_nonneg p w

/-- C1: for every record and every query, the relevance score computed by the
code equals the claim's weighted sum — 100/50/40/30/25/20/15 for full-query
substring hits on title/abstract/category/authors/doi/corresponding
author/institution, plus per query word longer than 2 characters
10/5/4/3/2/1.5 for title/abstract/category/authors/corresponding
author/institution hits and no per-word doi contribution — and the sum is
uncapped (it is the plain sum) and always non-negative. -/
theorem scorePaper_formula (q : String) (p : Paper) :
    scorePaper q p = scoreSpec q p ∧ 0 ≤ scorePaper q p := by
  have heq : scorePaper q p = scoreSpec q p := by
    unfold scorePaper
    rw [foldl_add_map]
    unfold scoreSpec
    congr 1
    · unfold exactHitScore; ring
    · refine congrArg List.sum (List.map_congr_left ?_)
      intro w _
      unfold wordHitScore
      ring
  exact ⟨heq, heq ▸ scoreSpec_nonneg q p⟩

/-- Descending comparison on scored records: `a` may precede `b` exactly when
`a`'s score is at least `b`'s. This is the total preorder realised by the JS
comparator `(a, b) => b.score - a.score` under a stable sort. -/
def scoreGE (a b : Paper × ℚ) : Prop := b.2 ≤ a.2

instance : DecidableRel scoreGE := fun a b => inferInstanceAs (Decidable (b.2 ≤ a.2))

instance : IsTotal (Paper × ℚ) scoreGE := ⟨fun a b => le_total b.2 a.2⟩

instance : IsTrans (Paper × ℚ) scoreGE := ⟨fun _ _ _ h1 h2 => le_trans h2 h1⟩

/-- The score-based filtering of a fetched collection, translated from
`searchPapers`: score every paper, keep strictly positive scores, sort by
descending score (stable, as JS `sort` is), return the papers. -/
def filterAndSort (query : String) (coll : List Paper) : List Paper :=
  let scored := coll.map (fun p => (p, scorePaper query p))
  let sorted := (scored.filter (fun x => decide (0 < x.2))).insertionSort scoreGE
  sorted.map Prod.fst

/-- C2: a search result produced by filtering a fetched collection consists of
exactly the records with score > 0 (zero-score records are dropped, with
multiplicity), is sorted by descending score, and records with equal score
keep the order in which they were encountered in the collection (stability:
any equal-score pair that appears in order among the kept records still
appears in that order in the result). -/
theorem filterAndSort_spec (q : String) (coll : List Paper) :
    (filterAndSort q coll).Perm
      (((coll.map (fun p => (p, scorePaper q p))).filter
        (fun x => decide (0 < x.2))).map Prod.fst)
    ∧ (filterAndSort q coll).Pairwise (fun p₁ p₂ => scorePaper q p₂ ≤ scorePaper q p₁)
    ∧ (∀ p ∈ filterAndSort q coll, 0 < scorePaper q p)
    ∧ (∀ x y : Paper × ℚ, x.2 = y.2 →
        [x, y] <+ (coll.map (fun p => (p, scorePaper q p))).filter
          (fun x => decide (0 < x.2)) →
        [x.1, y.1] <+ filterAndSort q coll) := by
  have hmem : ∀ x ∈ (((coll.map (fun p => (p, scorePaper q p))).filter
      (fun x => decide (0 < x.2))).insertionSort scoreGE),
      x.2 = scorePaper q x.1 ∧ 0 < x.2 := by
    intro x hx
    have hxk := (List.perm_insertionSort scoreGE _).mem_iff.mp hx
    have hpos := of_decide_eq_true (List.mem_filter.mp hxk).2
    have hxs := (List.mem_filter.mp hxk).1
    obtain ⟨p, _, rfl⟩ := List.mem_map.mp hxs
    exact ⟨rfl, hpos⟩
  refine ⟨?_, ?_, ?_, ?_⟩
  · exact (List.perm_insertionSort scoreGE _).map Prod.fst
  · refine List.pairwise_map.mpr ?_
    refine (List.sorted_insertionSort scoreGE _).imp_of_mem ?_
    intro a b ha hb hr
    rw [← (hmem a ha).1, ← (hmem b hb).1]
    exact hr
  · intro p hp
    obtain ⟨x, hx, rfl⟩ := List.mem_map.mp hp
    exact (hmem x hx).1 ▸ (hmem x hx).2
  · intro x y hxy hsub
    have hpair : [x, y] <+ (((coll.map (fun p => (p, scorePaper q p))).filter
        (fun x => decide (0 < x.2))).insertionSort scoreGE) :=
      List.pair_sublist_insertionSort (le_of_eq hxy.symm) hsub
    have := hpair.map Prod.fst
    simpa using this

/-- One entry of the fixed category catalog. -/
structure CategoryEntry where
  name : String
  description : String
deriving DecidableEq

/-- The fixed bioRxiv category catalog, verbatim from the source. -/
def BIORXIV_CATEGORIES : List CategoryEntry :=
  [⟨"animal_behavior_and_cognition", "Animal Behavior and Cognition"⟩,
   ⟨"biochemistry", "Biochemistry"⟩,
   ⟨"bioengineering", "Bioengineering"⟩,
   ⟨"bioinformatics", "Bioinformatics"⟩,
   ⟨"biophysics", "Biophysics"⟩,
   ⟨"cancer_biology", "Cancer Biology"⟩,
   ⟨"cell_biology", "Cell Biology"⟩,
   ⟨"clinical_trials", "Clinical Trials"⟩,
   ⟨"developmental_biology", "Developmental Biology"⟩,
   ⟨"ecology", "Ecology"⟩,
   ⟨"epidemiology", "Epidemiology"⟩,
   ⟨"evolutionary_biology", "Evolutionary Biology"⟩,
   ⟨"genetics", "Genetics"⟩,
   ⟨"genomics", "Genomics"⟩,
   ⟨"immunology", "Immunology"⟩,
   ⟨"microbiology", "Microbiology"⟩,
   ⟨"molecular_biology", "Molecular Biology"⟩,
   ⟨"neuroscience", "Neuroscience"⟩,
   ⟨"paleontology", "Paleontology"⟩,
   ⟨"pathology", "Pathology"⟩,
   ⟨"pharmacology_and_toxicology", "Pharmacology and Toxicology"⟩,
   ⟨"physiology", "Physiology"⟩,
   ⟨"plant_biology", "Plant Biology"⟩,
   ⟨"scientific_communication_and_education", "Scientific Communication and Education"⟩,
   ⟨"synthetic_biology", "Synthetic Biology"⟩,
   ⟨"systems_biology", "Systems Biology"⟩,
   ⟨"zoology", "Zoology"⟩]

/-- The two upstream collections distinguished by the path segment. -/
inductive Server where
  | biorxiv
  | medrxiv
deriving DecidableEq

/-- Query parameters of a listing request (`cursor`, `category`, `limit`). -/
structure Params where
  cursor : Option String
  category : Option String
  limit : Option Nat
deriving DecidableEq

/-- One upstream HTTP GET, identified by the endpoint shape and its
parameters: a date-range listing `/details/{server}/{from}/{to}/0` or a
direct lookup `/details/{server}/{doi}/na/json`. -/
inductive Request where
  | listing (server : Server) (fromDate toDate : String) (params : Params)
  | lookup (server : Server) (doi : String)
deriving DecidableEq

/-- Failure modes of one upstream call, as `makeApiRequest` classifies them:
an application-level error embedded in a 200 response, an HTTP status
failure, a network failure without a response, or retry exhaustion. -/
inductive ApiError where
  | appError (text : String)
  | httpStatus (status : Nat)
  | netError
  | maxRetriesExceeded
deriving DecidableEq

deriving instance DecidableEq for Except

/-- The upstream environment: what each request returns (success envelope or
the error `makeApiRequest` ends with). -/
def Env : Type := Request → Except ApiError ApiResponse

/-- Result of one `searchPapers` or `getPaperDetails` call together with the
trace of upstream requests it issued, in order. -/
structure SearchOut where
  result : Except String ApiResponse
  trace : List Request
deriving DecidableEq

/-- Message text of an `ApiError`, as the JS `Error` message. -/
def errMsg : ApiError → String
  | .appError t => t
  | .httpStatus s => "Request failed with status code " ++ toString s
  | .netError => "Network Error"
  | .maxRetriesExceeded => "Max retries exceeded"

/-- The `searchPapers` catch-block wrapper of an error message. -/
def wrapSearch (m : String) : String := "Error searching bioRxiv papers: " ++ m

/-- JS `/^\d{4}-\d{2}-\d{2}$/.test(s)`: four digits, dash, two digits, dash,
two digits — a shape check only, no calendar validation. -/
def isDateShape (s : String) : Bool :=
  match s.data with
  | [y1, y2, y3, y4, h1, m1, m2, h2, d1, d2] =>
    y1.isDigit && y2.isDigit && y3.isDigit && y4.isDigit && h1 == '-' &&
    m1.isDigit && m2.isDigit && h2 == '-' && d1.isDigit && d2.isDigit
  | _ => false

/-- Validation of an optional date argument: passes when the date is absent
or empty (JS `fromDate && ...` short-circuit) or matches the shape pattern. -/
def dateOk (o : Option String) : Bool :=
  match o with
  | some d => if d.data.isEmpty then true else isDateShape d
  | none => true

/-- Category resolution and parameter assembly of `searchPapers`: catalog
match first (exact machine/display name or query containing the display
name, case-insensitively), then the medical-trigger routing to medrxiv,
else the underscored query as category on biorxiv; `cursor` is added only
when truthy and `limit` only when non-zero. -/
def primaryParams (query : String) (limit : Nat) (cursor : Option String) :
    Server × Params :=
  let queryLower := lowerStr query
  let matched := BIORXIV_CATEGORIES.find? (fun cat =>
    lowerStr cat.description == queryLower || lowerStr cat.name == queryLower ||
    containsStr queryLower (lowerStr cat.description))
  let (srv, cat) :=
    match matched with
    | some c => (Server.biorxiv, underscore c.name)
    | none =>
      if containsStr queryLower "cardio" || containsStr queryLower "heart" ||
         containsStr queryLower "medical" || containsStr queryLower "medicine" then
        if containsStr queryLower "cardiovascular" || containsStr queryLower "cardio" then
          (Server.medrxiv, "cardiovascular_medicine")
        else (Server.medrxiv, underscore query)
      else (Server.biorxiv, underscore query)
  (srv, ⟨optNonempty cursor, some cat, if limit ≠ 0 then some limit else none⟩)

/-- The primary listing request of one `searchPapers` call. -/
def primaryRequest (query fiveYearsAgo today : String) (fromDate toDate : Option String)
    (limit : Nat) (cursor : Option String) : Request :=
  Request.listing (primaryParams query limit cursor).1
    (strOr fromDate fiveYearsAgo) (strOr toDate today)
    (primaryParams query limit cursor).2

/-- `BioRxivApiClient.getPaperDetails`: validate the DOI (non-blank after
trimming, contains a separator), then issue the direct lookup; errors are
wrapped in the method's catch-block message. -/
def getPaperDetails (env : Env) (doi : String) : SearchOut :=
  if (jsTrim doi).data.isEmpty || !containsStr doi "/" then
    ⟨.error ("Error fetching paper details: Invalid DOI format. Expected format: 10.1101/XXXXXXX"), []⟩
  else
    match env (.lookup .biorxiv doi) with
    | .ok r => ⟨.ok r, [.lookup .biorxiv doi]⟩
    | .error e => ⟨.error ("Error fetching paper details: " ++ errMsg e), [.lookup .biorxiv doi]⟩

/-- The DOI short-circuit step of `searchPapers`: when the query contains
"10.1101/", try a direct lookup for the trimmed query; return its response
when it succeeded with a non-empty collection, otherwise fall through
(a lookup failure is swallowed). The second component is the trace. -/
def doiStep (env : Env) (query : String) : Option ApiResponse × List Request :=
  if containsStr query "10.1101/" then
    let pd := getPaperDetails env (jsTrim query)
    match pd.result with
    | .ok r =>
      match r.collection with
      | some l => (if l.isEmpty then none else some r, pd.trace)
      | none => (none, pd.trace)
    | .error _ => (none, pd.trace)
  else (none, [])

/-- The scoring/filtering stage of `searchPapers`, from the
`response.collection` check onward: when the response has no collection
array, the raw response is returned unchanged; otherwise the collection is
scored and filtered, and — only when that leaves nothing — the two broader
listings (bioRxiv from the 2013-01-01 epoch to today with the previous
parameters re-categorised to the underscored query, and medRxiv over the
default five-year window with only that category) are fetched, merged and
re-scored; pagination metadata is rebuilt from the filtered count. The
second component is the trace of the extra requests. -/
def filterStage (env : Env) (today fiveYearsAgo query cursorValue : String)
    (params : Params) (response : ApiResponse) : SearchOut :=
  match response.collection with
  | none => ⟨.ok response, []⟩
  | some coll =>
    let filteredCollection := filterAndSort query coll
    let headMsg := response.messages.headD ⟨"", 0, "", ""⟩
    let normal : Except String ApiResponse :=
      .ok ⟨[⟨headMsg.status, filteredCollection.length, cursorValue, headMsg.text⟩],
           some filteredCollection⟩
    if filteredCollection.isEmpty then
      let broadParams : Params := ⟨params.cursor, some (underscore query), params.limit⟩
      let reqB := Request.listing .biorxiv "2013-01-01" today broadParams
      match env reqB with
      | .error e => ⟨.error (wrapSearch (errMsg e)), [reqB]⟩
      | .ok bioBroad =>
        let reqM := Request.listing .medrxiv fiveYearsAgo today
          ⟨none, some (underscore query), none⟩
        match env reqM with
        | .error e => ⟨.error (wrapSearch (errMsg e)), [reqB, reqM]⟩
        | .ok medResp =>
          let combined := bioBroad.collection.getD [] ++ medResp.collection.getD []
          if combined.isEmpty then ⟨normal, [reqB, reqM]⟩
          else
            let broadFiltered := filterAndSort query combined
            if broadFiltered.isEmpty then ⟨normal, [reqB, reqM]⟩
            else
              ⟨.ok ⟨[⟨"ok", broadFiltered.length, cursorValue, ""⟩], some broadFiltered⟩,
               [reqB, reqM]⟩
    else ⟨normal, []⟩

/-- The body of `searchPapers` after validation: primary fetch, DOI
short-circuit, then the scoring/filter/fallback stage; the trace lists every
upstream request in order. -/
def searchCore (env : Env) (today fiveYearsAgo query : String)
    (fromDate toDate : Option String) (limit : Nat) (cursor : Option String) :
    SearchOut :=
  let req1 := primaryRequest query fiveYearsAgo today fromDate toDate limit cursor
  match env req1 with
  | .error e => ⟨.error (wrapSearch (errMsg e)), [req1]⟩
  | .ok response =>
    let ds := doiStep env query
    match ds.1 with
    | some r => ⟨.ok r, req1 :: ds.2⟩
    | none =>
      let fs := filterStage env today fiveYearsAgo query (strOr cursor "0")
        (primaryParams query limit cursor).2 response
      ⟨fs.result, req1 :: ds.2 ++ fs.trace⟩

/-- `BioRxivApiClient.searchPapers` as a pure function of the upstream
environment and the clock (`today`, `fiveYearsAgo`): validates the query and
the two optional dates, then runs the fetch/short-circuit/filter/fallback
pipeline; every thrown error is wrapped by the method's catch block. -/
def searchPapers (env : Env) (today fiveYearsAgo query : String)
    (fromDate toDate : Option String) (limit : Nat) (cursor : Option String) :
    SearchOut :=
  if (jsTrim query).data.isEmpty then
    ⟨.error (wrapSearch "Search query cannot be empty"), []⟩
  else if !dateOk fromDate then
    ⟨.error (wrapSearch "Invalid from_date format. Use YYYY-MM-DD"), []⟩
  else if !dateOk toDate then
    ⟨.error (wrapSearch "Invalid to_date format. Use YYYY-MM-DD"), []⟩
  else searchCore env today fiveYearsAgo query fromDate toDate limit cursor

/-- Outcome of one HTTP attempt inside `makeApiRequest`: a 200 response with
a parsed body, an axios error carrying an HTTP status, or a network failure
without a response. -/
inductive HttpOutcome where
  | ok (body : ApiResponse)
  | httpFailure (status : Nat)
  | netFailure
deriving DecidableEq

/-- JS `messages[0].text || "API returned an error"`. -/
def appErrorText (m : Msg) : String :=
  if m.text.data.isEmpty then "API returned an error" else m.text

/-- The embedded-error check of `makeApiRequest`: a body whose first message
has `status == "error"` is an application-level failure. -/
def checkBody (body : ApiResponse) : Except ApiError ApiResponse :=
  match body.messages.head? with
  | some m =>
    if m.status == "error" then .error (.appError (appErrorText m)) else .ok body
  | none => .ok body

/-- Status classification of the retry loop:
`status === 429 || status >= 500` is retried, anything else is not. -/
def retryableStatus (s : Nat) : Bool := s == 429 || decide (500 ≤ s)

/-- Full accounting of one `makeApiRequest` call: its result, how many HTTP
attempts it made, the sleeps it performed (in order), and the value of the
client's `retryDelay` field when the call ends. -/
structure ExecTrace where
  result : Except ApiError ApiResponse
  attempts : Nat
  sleeps : List ℚ
  finalDelay : ℚ
deriving DecidableEq

/-- The retry loop of `makeApiRequest`: `remaining` is
`maxRetries - retries`, `i` indexes the attempt outcomes, `d` is the current
`retryDelay`, `last` the last error seen. A retryable failure sleeps `d`,
doubles the delay and retries; any other failure, and an embedded
application error, raises immediately; exhaustion rethrows the last error
(`lastError || "Max retries exceeded"`). -/
def runRequest (outcomes : Nat → HttpOutcome) :
    Nat → Nat → ℚ → Option ApiError → ExecTrace
  | 0, _, d, last => ⟨.error (last.getD .maxRetriesExceeded), 0, [], d⟩
  | r + 1, i, d, _ =>
    match outcomes i with
    | .ok body =>
      match checkBody body with
      | .ok b => ⟨.ok b, 1, [], d⟩
      | .error e => ⟨.error e, 1, [], d⟩
    | .httpFailure s =>
      if retryableStatus s then
        let rest := runRequest outcomes r (i + 1) (2 * d) (some (.httpStatus s))
        ⟨rest.result, rest.attempts + 1, d :: rest.sleeps, rest.finalDelay⟩
      else ⟨.error (.httpStatus s), 1, [], d⟩
    | .netFailure => ⟨.error .netError, 1, [], d⟩

/-- `BioRxivApiClient.makeApiRequest` with `maxRetries = 3`, starting from
the client's current `retryDelay` value `d`; `outcomes i` is what the `i`-th
HTTP attempt of this call returns. -/
def makeApiRequest (outcomes : Nat → HttpOutcome) (d : ℚ) : ExecTrace :=
  runRequest outcomes 3 0 d none

/-- A sequence of `makeApiRequest` calls on one client instance: each call
starts from the `retryDelay` the previous call left behind (the field is
never reset); returns the final `retryDelay`. -/
def clientCalls (d : ℚ) (calls : List (Nat → HttpOutcome)) : ℚ :=
  calls.foldl (fun acc oc => (makeApiRequest oc acc).finalDelay) d

/-- The `search_bio_parts` tool of the bio-part-search server: filter the
loaded part ids by a case-insensitive substring of the optional query
(absent means empty), and pair each id with itself as its name. -/
def searchBioParts (ids : List String) (query : Option String) :
    List (String × String) :=
  let q := lowerStr (query.getD "")
  (ids.filter (fun id => containsStr (lowerStr id) q)).map (fun id => (id, id))

/-- The `list_all_bio_parts` tool: every loaded part id, paired with itself. -/
def listAllBioParts (ids : List String) : List (String × String) :=
  ids.map (fun id => (id, id))

theorem runRequest_succ (oc : Nat → HttpOutcome) (r i : Nat) (d : ℚ)
    (last : Option ApiError) :
    runRequest oc (r + 1) i d last =
      match oc i with
      | .ok body =>
        match checkBody body with
        | .ok b => ⟨.ok b, 1, [], d⟩
        | .error e => ⟨.error e, 1, [], d⟩
      | .httpFailure s =>
        if retryableStatus s then
          ⟨(runRequest oc r (i + 1) (2 * d) (some (.httpStatus s))).result,
           (runRequest oc r (i + 1) (2 * d) (some (.httpStatus s))).attempts + 1,
           d :: (runRequest oc r (i + 1) (2 * d) (some (.httpStatus s))).sleeps,
           (runRequest oc r (i + 1) (2 * d) (some (.httpStatus s))).finalDelay⟩
        else ⟨.error (.httpStatus s), 1, [], d⟩
      | .netFailure => ⟨.error .netError, 1, [], d⟩ := rfl

theorem runRequest_attempts_le (oc : Nat → HttpOutcome) :
    ∀ (r i : Nat) (d : ℚ) (last : Option ApiError),
      (runRequest oc r i d last).attempts ≤ r := by
  intro r
  induction r with
  | zero => intro i d last; simp [runRequest]
  | succ n ih =>
    intro i d last
    rw [runRequest_succ]
    cases oc i with
    | ok body => cases h : checkBody body <;> simp [h]
    | httpFailure s =>
      by_cases hr : retryableStatus s
      · simp only [hr, if_true]
        exact Nat.succ_le_succ (ih (i + 1) (2 * d) _)
      · simp [hr]
    | netFailure => simp

theorem runRequest_attempts_pos (oc : Nat → HttpOutcome) (r i : Nat) (d : ℚ)
    (last : Option ApiError) : 1 ≤ (runRequest oc (r + 1) i d last).attempts := by
  rw [runRequest_succ]
  cases oc i with
  | ok body => cases h : checkBody body <;> simp [h]
  | httpFailure s =>
    by_cases hr : retryableStatus s
    · simp [hr]
    · simp [hr]
  | netFailure => simp

theorem runRequest_sleeps_geom (oc : Nat → HttpOutcome) :
    ∀ (r i : Nat) (d : ℚ) (last : Option ApiError),
      ∃ k, (runRequest oc r i d last).sleeps = (List.range k).map (fun j => 2 ^ j * d)
        ∧ (runRequest oc r i d last).finalDelay = 2 ^ k * d := by
  intro r
  induction r with
  | zero => intro i d last; exact ⟨0, by simp [runRequest], by simp [runRequest]⟩
  | succ n ih =>
    intro i d last
    rw [runRequest_succ]
    cases oc i with
    | ok body =>
      cases h : checkBody body <;> exact ⟨0, by simp [h], by simp [h]⟩
    | httpFailure s =>
      by_cases hr : retryableStatus s
      · simp only [hr, if_true]
        obtain ⟨k, hk, hf⟩ := ih (i + 1) (2 * d) (some (.httpStatus s))
        refine ⟨k + 1, ?_, ?_⟩
        · simp only [hk, List.range_succ_eq_map, List.map_cons, List.map_map]
          refine congrArg₂ List.cons (by ring) ?_
          refine List.map_congr_left ?_
          intro j _
          show 2 ^ j * (2 * d) = 2 ^ (j + 1) * d
          ring
        · simp only [hf]
          ring
      · exact ⟨0, by simp [hr], by simp [hr]⟩
    | netFailure => exact ⟨0, by simp, by simp⟩

/-- C6: every request is retried exactly when it failed with HTTP 429 or a
5xx status; any other status and any network failure raises immediately
without retry; a forced sequence of 429 responses makes exactly 3 attempts
(the configured maximum), never more; and every backoff sleep is double the
previous one. -/
theorem makeApiRequest_retry_policy (oc : Nat → HttpOutcome) (d : ℚ) :
    (makeApiRequest oc d).attempts ≤ 3
    ∧ (∀ s, oc 0 = .httpFailure s → s < 600 →
        (2 ≤ (makeApiRequest oc d).attempts ↔ (s = 429 ∨ 500 ≤ s)))
    ∧ (oc 0 = .netFailure → makeApiRequest oc d = ⟨.error .netError, 1, [], d⟩)
    ∧ (∀ s, oc 0 = .httpFailure s → ¬(s = 429 ∨ 500 ≤ s) →
        makeApiRequest oc d = ⟨.error (.httpStatus s), 1, [], d⟩)
    ∧ ((∀ i, oc i = .httpFailure 429) →
        (makeApiRequest oc d).attempts = 3
        ∧ (makeApiRequest oc d).sleeps = [d, 2 * d, 4 * d])
    ∧ (∀ j x y, (makeApiRequest oc d).sleeps[j]? = some x →
        (makeApiRequest oc d).sleeps[j + 1]? = some y → y = 2 * x) := by
  have hretry : ∀ s, retryableStatus s = true ↔ (s = 429 ∨ 500 ≤ s) := by
    intro s
    simp [retryableStatus]
  refine ⟨runRequest_attempts_le oc 3 0 d none, ?_, ?_, ?_, ?_, ?_⟩
  · intro s h0 _
    rw [← hretry s]
    unfold makeApiRequest
    rw [show (3 : Nat) = 2 + 1 from rfl, runRequest_succ, h0]
    constructor
    · intro h2
      by_contra hnr
      rw [Bool.not_eq_true] at hnr
      simp [hnr] at h2
    · intro hr
      simp only [hr, if_true]
      have := runRequest_attempts_pos oc 1 1 (2 * d) (some (.httpStatus s))
      show 2 ≤ (runRequest oc (1 + 1) 1 (2 * d) (some (.httpStatus s))).attempts + 1
      omega
  · intro h0
    unfold makeApiRequest
    rw [show (3 : Nat) = 2 + 1 from rfl, runRequest_succ, h0]
  · intro s h0 hnr
    rw [← hretry s, Bool.not_eq_true] at hnr
    unfold makeApiRequest
    rw [show (3 : Nat) = 2 + 1 from rfl, runRequest_succ, h0]
    simp [hnr]
  · intro h429
    have hall : ∀ r i (d₀ : ℚ) last, (runRequest oc r i d₀ last).attempts = r
        ∧ (runRequest oc r i d₀ last).sleeps
          = (List.range r).map (fun j => 2 ^ j * d₀) := by
      intro r
      induction r with
      | zero => intro i d₀ last; simp [runRequest]
      | succ n ih =>
        intro i d₀ last
        rw [runRequest_succ, h429 i]
        have hr : retryableStatus 429 = true := by simp [retryableStatus]
        simp only [hr, if_true]
        obtain ⟨ha, hs⟩ := ih (i + 1) (2 * d₀) (some (.httpStatus 429))
        refine ⟨by simp [ha], ?_⟩
        simp only [ExecTrace.sleeps, hs, List.range_succ_eq_map, List.map_cons,
          List.map_map]
        refine congrArg₂ List.cons (by ring) ?_
        refine List.map_congr_left ?_
        intro j _
        show 2 ^ j * (2 * d₀) = 2 ^ (j + 1) * d₀
        ring
    obtain ⟨ha, hs⟩ := hall 3 0 d none
    refine ⟨ha, ?_⟩
    unfold makeApiRequest
    rw [hs, show List.range 3 = [0, 1, 2] from rfl]
    norm_num
  · intro j x y hx hy
    obtain ⟨k, hk, _⟩ := runRequest_sleeps_geom oc 3 0 d none
    unfold makeApiRequest at hx hy
    rw [hk] at hx hy
    have hjk : j + 1 < k := by
      by_contra hcon
      rw [List.getElem?_eq_none (by simpa using Nat.not_lt.mp hcon)] at hy
      exact Option.noConfusion hy
    have hj : j < k := by omega
    rw [List.getElem?_map, List.getElem?_range hj] at hx
    rw [List.getElem?_map, List.getElem?_range hjk] at hy
    simp only [Option.map_some'] at hx hy
    obtain rfl := Option.some.inj hx
    obtain rfl := Option.some.inj hy
    ring

/-- C7: a 200 response whose body carries `messages[0].status == "error"` is
raised immediately as an application-level failure — one single attempt,
no sleep, no retry, and the client delay is untouched. -/
theorem makeApiRequest_appError_immediate (oc : Nat → HttpOutcome) (d : ℚ)
    (body : ApiResponse) (m : Msg) (h0 : oc 0 = .ok body)
    (hm : body.messages.head? = some m) (hs : m.status = "error") :
    makeApiRequest oc d = ⟨.error (.appError (appErrorText m)), 1, [], d⟩ := by
  unfold makeApiRequest
  rw [show (3 : Nat) = 2 + 1 from rfl, runRequest_succ, h0]
  have hc : checkBody body = .error (.appError (appErrorText m)) := by
    unfold checkBody
    rw [hm]
    simp [hs]
  simp [hc]

/-- Witness for C7: a concrete 200 body with an embedded error status fails
in one attempt with no sleeps. -/
theorem makeApiRequest_appError_immediate_witness :
    makeApiRequest (fun _ => .ok ⟨[⟨"error", 7, "9", ""⟩], none⟩) 1000 =
      ⟨.error (.appError "API returned an error"), 1, [], 1000⟩ :=
  makeApiRequest_appError_immediate _ 1000 ⟨[⟨"error", 7, "9", ""⟩], none⟩
    ⟨"error", 7, "9", ""⟩ rfl rfl rfl

theorem clientCalls_ge (calls : List (Nat → HttpOutcome)) :
    ∀ d : ℚ, 0 < d → d ≤ clientCalls d calls ∧ 0 < clientCalls d calls := by
  induction calls with
  | nil => intro d hd; exact ⟨le_refl d, hd⟩
  | cons oc rest ih =>
    intro d hd
    have hstep : d ≤ (makeApiRequest oc d).finalDelay := by
      obtain ⟨k, _, hf⟩ := runRequest_sleeps_geom oc 3 0 d none
      rw [makeApiRequest, hf]
      have h1 : (1 : ℚ) ≤ 2 ^ k := one_le_pow₀ (by norm_num)
      exact le_mul_of_one_le_left (le_of_lt hd) h1
    have hpos : 0 < (makeApiRequest oc d).finalDelay := lt_of_lt_of_le hd hstep
    have := ih ((makeApiRequest oc d).finalDelay) hpos
    exact ⟨le_trans hstep this.1, this.2⟩

/-- C8: the backoff delay is client-instance state: a call that performed
`k` retries (equivalently, slept `k` times) leaves the delay multiplied by
`2 ^ k`, so it never decreases, and over any sequence of calls on one
instance the delay baseline only ratchets upward from its starting value —
it is never reset. -/
theorem retryDelay_ratchet (oc : Nat → HttpOutcome) (d : ℚ) :
    (makeApiRequest oc d).finalDelay
      = 2 ^ (makeApiRequest oc d).sleeps.length * d
    ∧ (0 < d → d ≤ (makeApiRequest oc d).finalDelay)
    ∧ (0 < d → ∀ calls : List (Nat → HttpOutcome), d ≤ clientCalls d calls) := by
  obtain ⟨k, hsl, hf⟩ := runRequest_sleeps_geom oc 3 0 d none
  refine ⟨?_, ?_, ?_⟩
  · show (runRequest oc 3 0 d none).finalDelay
      = 2 ^ (runRequest oc 3 0 d none).sleeps.length * d
    rw [hsl, hf]
    simp
  · intro hd
    show d ≤ (runRequest oc 3 0 d none).finalDelay
    rw [hf]
    exact le_mul_of_one_le_left (le_of_lt hd) (one_le_pow₀ (by norm_num))
  · intro hd calls
    exact (clientCalls_ge calls d hd).1

/-- C10: with the query argument omitted or empty, `search_bio_parts`
returns exactly the `list_all_bio_parts` result — same elements, same
order — because the empty substring matches every id. -/
theorem searchBioParts_empty_query (ids : List String) (query : Option String)
    (h : query = none ∨ query = some "") :
    searchBioParts ids query = listAllBioParts ids := by
  have hq : lowerStr (query.getD "") = "" := by
    rcases h with rfl | rfl <;> rfl
  unfold searchBioParts listAllBioParts
  rw [hq]
  have hall : ids.filter (fun id => containsStr (lowerStr id) "") = ids := by
    refine List.filter_eq_self.mpr ?_
    intro a _
    exact decide_eq_true (show ("" : String).data <:+: (lowerStr a).data from by
      simp [List.nil_infix])
  show (ids.filter (fun id => containsStr (lowerStr id) "")).map (fun id => (id, id))
    = ids.map (fun id => (id, id))
  rw [hall]

/-- Witness for C10: on a concrete two-part library, searching with no query
equals listing all parts. -/
theorem searchBioParts_empty_query_witness :
    searchBioParts ["promoter", "terminator"] none
      = listAllBioParts ["promoter", "terminator"] :=
  searchBioParts_empty_query ["promoter", "terminator"] none (Or.inl rfl)

theorem dropWhile_dropWhile (p : Char → Bool) (l : List Char) :
    (l.dropWhile p).dropWhile p = l.dropWhile p := by
  induction l with
  | nil => rfl
  | cons a t ih =>
    by_cases h : p a
    · simp only [List.dropWhile_cons, h, if_true, ih]
    · simp only [List.dropWhile_cons, h, Bool.false_eq_true, if_false, List.dropWhile_cons]

theorem dropWhile_head_false (p : Char → Bool) (l : List Char) (a : Char)
    (t : List Char) (h : l.dropWhile p = a :: t) : p a = false := by
  induction l with
  | nil => simp at h
  | cons b r ih =>
    rw [List.dropWhile_cons] at h
    by_cases hb : p b
    · rw [if_pos hb] at h
      exact ih h
    · rw [if_neg hb] at h
      injection h with h1 _
      subst h1
      simpa using hb

theorem trimChars_idem (l : List Char) : trimChars (trimChars l) = trimChars l := by
  have hA : ∃ w, l.dropWhile Char.isWhitespace = trimChars l ++ w := by
    refine ⟨((l.dropWhile Char.isWhitespace).reverse.takeWhile Char.isWhitespace).reverse, ?_⟩
    have h1 := List.takeWhile_append_dropWhile Char.isWhitespace
      (l.dropWhile Char.isWhitespace).reverse
    have h2 := congrArg List.reverse h1
    rw [List.reverse_append, List.reverse_reverse] at h2
    exact h2.symm
  have hdrop : (trimChars l).dropWhile Char.isWhitespace = trimChars l := by
    cases hB : trimChars l with
    | nil => rfl
    | cons a t =>
      obtain ⟨w, hw⟩ := hA
      rw [hB] at hw
      have hpa : Char.isWhitespace a = false :=
        dropWhile_head_false Char.isWhitespace l a (t ++ w) (by rw [hw]; simp)
      rw [List.dropWhile_cons, hpa]
      simp
  show ((((trimChars l).dropWhile Char.isWhitespace).reverse.dropWhile
    Char.isWhitespace).reverse) = trimChars l
  rw [hdrop]
  have hrev : (trimChars l).reverse
      = (l.dropWhile Char.isWhitespace).reverse.dropWhile Char.isWhitespace := by
    show (((l.dropWhile Char.isWhitespace).reverse.dropWhile
      Char.isWhitespace).reverse).reverse = _
    rw [List.reverse_reverse]
  rw [hrev, dropWhile_dropWhile, ← hrev, List.reverse_reverse]

theorem mem_dropWhile_of_not (p : Char → Bool) (c : Char) (hc : p c = false) :
    ∀ l : List Char, c ∈ l → c ∈ l.dropWhile p := by
  intro l
  induction l with
  | nil => intro h; exact absurd h (List.not_mem_nil c)
  | cons a t ih =>
    intro h
    rw [List.dropWhile_cons]
    by_cases ha : p a
    · rw [if_pos ha]
      rcases List.mem_cons.mp h with rfl | ht
      · rw [hc] at ha
        exact absurd ha (by simp)
      · exact ih ht
    · rw [if_neg ha]
      exact h

theorem mem_trimChars (c : Char) (hc : c.isWhitespace = false) (l : List Char)
    (h : c ∈ l) : c ∈ trimChars l := by
  unfold trimChars
  rw [List.mem_reverse]
  refine mem_dropWhile_of_not _ _ hc _ ?_
  rw [List.mem_reverse]
  exact mem_dropWhile_of_not _ _ hc l h

theorem containsStr_of_mem (s : String) (c : Char) (h : c ∈ s.data) :
    containsStr s ⟨[c]⟩ = true := by
  unfold containsStr
  refine decide_eq_true ?_
  obtain ⟨l1, l2, heq⟩ := List.append_of_mem h
  rw [heq]
  exact ⟨l1, l2, by simp⟩

theorem jsTrim_idem (s : String) : jsTrim (jsTrim s) = jsTrim s :=
  congrArg String.mk (trimChars_idem s.data)

/-- C5 counterexample: the search call with `fromDate = "2023-13-40"` is NOT
rejected — the string matches the shape regex `^\d{4}-\d{2}-\d{2}$` (13 and
40 are two digits each), so validation passes, the upstream listing request
is issued with that date, and the call returns the upstream response; no
ValidationError is raised. -/
theorem searchPapers_malformed_date_counterexample :
    searchPapers (fun _ => .ok ⟨[], none⟩) "2025-10-12" "2020-10-12" "CRISPR"
        (some "2023-13-40") none 25 none =
      ⟨.ok ⟨[], none⟩,
       [Request.listing .biorxiv "2023-13-40" "2025-10-12"
         ⟨none, some "CRISPR", some 25⟩]⟩ := by
  rfl

/-- C5 (amended): date validation is a shape check only. Any provided
non-empty `from_date` or `to_date` that fails the `^\d{4}-\d{2}-\d{2}$`
shape is rejected immediately — the call returns the validation error and
issues no upstream request (so it is never retried). But a well-shaped
calendar-invalid date such as "2023-13-40" passes the check (see the
counterexample: the upstream call proceeds with it). -/
theorem searchPapers_shape_validation (env : Env) (today fiveYearsAgo query : String)
    (toDate : Option String) (limit : Nat) (cursor : Option String)
    (hq : (jsTrim query).data ≠ []) :
    isDateShape "2023-13-40" = true
    ∧ (∀ fd : String, fd.data ≠ [] → isDateShape fd = false →
        searchPapers env today fiveYearsAgo query (some fd) toDate limit cursor =
          ⟨.error (wrapSearch "Invalid from_date format. Use YYYY-MM-DD"), []⟩)
    ∧ (∀ (fromDate : Option String) (td : String), dateOk fromDate = true →
        td.data ≠ [] → isDateShape td = false →
        searchPapers env today fiveYearsAgo query fromDate (some td) limit cursor =
          ⟨.error (wrapSearch "Invalid to_date format. Use YYYY-MM-DD"), []⟩) := by
  have hqe : (jsTrim query).data.isEmpty = false := by
    cases h : (jsTrim query).data with
    | nil => exact absurd h hq
    | cons a t => rfl
  refine ⟨rfl, ?_, ?_⟩
  · intro fd hfd hshape
    have hde : dateOk (some fd) = false := by
      unfold dateOk
      have hf : fd.data.isEmpty = false := by
        cases h : fd.data with
        | nil => exact absurd h hfd
        | cons a t => rfl
      simp [hf, hshape]
    unfold searchPapers
    rw [hqe, hde]
    rfl
  · intro fromDate td hfrom htd hshape
    have hde : dateOk (some td) = false := by
      unfold dateOk
      have hf : td.data.isEmpty = false := by
        cases h : td.data with
        | nil => exact absurd h htd
        | cons a t => rfl
      simp [hf, hshape]
    unfold searchPapers
    rw [hqe, hfrom, hde]
    rfl

/-- Witness for C5 (amended): at a concrete call, the shape-invalid
from_date "2023-1" is rejected with no upstream request, while
"2023-13-40" passes the shape check. -/
theorem searchPapers_shape_validation_witness :
    isDateShape "2023-13-40" = true
    ∧ searchPapers (fun _ => .ok ⟨[], none⟩) "2025-10-12" "2020-10-12" "CRISPR"
        (some "2023-1") none 25 none =
      ⟨.error (wrapSearch "Invalid from_date format. Use YYYY-MM-DD"), []⟩ := by
  have h := searchPapers_shape_validation (fun _ => .ok ⟨[], none⟩)
    "2025-10-12" "2020-10-12" "CRISPR" none 25 none (by decide)
  exact ⟨h.1, h.2.1 "2023-1" (by decide) (by decide)⟩

theorem searchPapers_core_some (env : Env) (today fiveYearsAgo query : String)
    (fromDate toDate : Option String) (limit : Nat) (cursor : Option String)
    (resp r : ApiResponse)
    (hq : (jsTrim query).data ≠ [])
    (hf : dateOk fromDate = true) (ht : dateOk toDate = true)
    (henv : env (primaryRequest query fiveYearsAgo today fromDate toDate limit cursor)
      = .ok resp)
    (hds : (doiStep env query).1 = some r) :
    searchPapers env today fiveYearsAgo query fromDate toDate limit cursor =
      ⟨.ok r, primaryRequest query fiveYearsAgo today fromDate toDate limit cursor
        :: (doiStep env query).2⟩ := by
  have hqe : (jsTrim query).data.isEmpty = false := by
    cases h : (jsTrim query).data with
    | nil => exact absurd h hq
    | cons a t => rfl
  unfold searchPapers
  rw [hqe, hf, ht]
  show searchCore env today fiveYearsAgo query fromDate toDate limit cursor = _
  unfold searchCore
  simp [henv, hds]

theorem searchPapers_core_none (env : Env) (today fiveYearsAgo query : String)
    (fromDate toDate : Option String) (limit : Nat) (cursor : Option String)
    (resp : ApiResponse)
    (hq : (jsTrim query).data ≠ [])
    (hf : dateOk fromDate = true) (ht : dateOk toDate = true)
    (henv : env (primaryRequest query fiveYearsAgo today fromDate toDate limit cursor)
      = .ok resp)
    (hds : (doiStep env query).1 = none) :
    searchPapers env today fiveYearsAgo query fromDate toDate limit cursor =
      ⟨(filterStage env today fiveYearsAgo query (strOr cursor "0")
          (primaryParams query limit cursor).2 resp).result,
       primaryRequest query fiveYearsAgo today fromDate toDate limit cursor
         :: (doiStep env query).2
         ++ (filterStage env today fiveYearsAgo query (strOr cursor "0")
              (primaryParams query limit cursor).2 resp).trace⟩ := by
  have hqe : (jsTrim query).data.isEmpty = false := by
    cases h : (jsTrim query).data with
    | nil => exact absurd h hq
    | cons a t => rfl
  unfold searchPapers
  rw [hqe, hf, ht]
  show searchCore env today fiveYearsAgo query fromDate toDate limit cursor = _
  unfold searchCore
  simp [henv, hds]

/-- C9 (implicit behaviour): when the primary fetch succeeds but the
upstream response carries no `collection` array, and the DOI short-circuit
did not apply, `searchPapers` returns that raw upstream response unchanged —
no scoring, no filtering, and no fallback listing requests are issued (the
trace holds only the primary request and whatever lookup the DOI step made). -/
theorem searchPapers_no_collection (env : Env) (today fiveYearsAgo query : String)
    (fromDate toDate : Option String) (limit : Nat) (cursor : Option String)
    (resp : ApiResponse)
    (hq : (jsTrim query).data ≠ [])
    (hf : dateOk fromDate = true) (ht : dateOk toDate = true)
    (henv : env (primaryRequest query fiveYearsAgo today fromDate toDate limit cursor)
      = .ok resp)
    (hcoll : resp.collection = none)
    (hds : (doiStep env query).1 = none) :
    (searchPapers env today fiveYearsAgo query fromDate toDate limit cursor).result
      = .ok resp
    ∧ (searchPapers env today fiveYearsAgo query fromDate toDate limit cursor).trace
      = primaryRequest query fiveYearsAgo today fromDate toDate limit cursor
        :: (doiStep env query).2 := by
  rw [searchPapers_core_none env today fiveYearsAgo query fromDate toDate limit cursor
    resp hq hf ht henv hds]
  have hfs : filterStage env today fiveYearsAgo query (strOr cursor "0")
      (primaryParams query limit cursor).2 resp = ⟨.ok resp, []⟩ := by
    unfold filterStage
    simp [hcoll]
  rw [hfs]
  simp

/-- Witness for C9: a concrete call whose upstream response has no
collection array returns that response unchanged with a single-request
trace. -/
theorem searchPapers_no_collection_witness :
    (searchPapers (fun _ => .ok ⟨[⟨"ok", 42, "7", ""⟩], none⟩)
        "2025-10-12" "2020-10-12" "CRISPR" none none 25 none).result
      = .ok ⟨[⟨"ok", 42, "7", ""⟩], none⟩
    ∧ (searchPapers (fun _ => .ok ⟨[⟨"ok", 42, "7", ""⟩], none⟩)
        "2025-10-12" "2020-10-12" "CRISPR" none none 25 none).trace
      = primaryRequest "CRISPR" "2020-10-12" "2025-10-12" none none 25 none
        :: (doiStep (fun _ => .ok ⟨[⟨"ok", 42, "7", ""⟩], none⟩) "CRISPR").2 :=
  searchPapers_no_collection (fun _ => .ok ⟨[⟨"ok", 42, "7", ""⟩], none⟩)
    "2025-10-12" "2020-10-12" "CRISPR" none none 25 none ⟨[⟨"ok", 42, "7", ""⟩], none⟩
    (by decide) rfl rfl rfl rfl rfl

theorem getPaperDetails_ok (env : Env) (doi : String) (r : ApiResponse)
    (hne : (jsTrim doi).data ≠ []) (hsl : containsStr doi "/" = true)
    (he : env (.lookup .biorxiv doi) = .ok r) :
    getPaperDetails env doi = ⟨.ok r, [.lookup .biorxiv doi]⟩ := by
  have h1 : (jsTrim doi).data.isEmpty = false := by
    cases h : (jsTrim doi).data with
    | nil => exact absurd h hne
    | cons a t => rfl
  unfold getPaperDetails
  simp [h1, hsl, he]

theorem getPaperDetails_err (env : Env) (doi : String) (e : ApiError)
    (hne : (jsTrim doi).data ≠ []) (hsl : containsStr doi "/" = true)
    (he : env (.lookup .biorxiv doi) = .error e) :
    getPaperDetails env doi
      = ⟨.error ("Error fetching paper details: " ++ errMsg e),
         [.lookup .biorxiv doi]⟩ := by
  have h1 : (jsTrim doi).data.isEmpty = false := by
    cases h : (jsTrim doi).data with
    | nil => exact absurd h hne
    | cons a t => rfl
  unfold getPaperDetails
  simp [h1, hsl, he]

theorem jsTrim_slash (query : String) (hdoi : containsStr query "10.1101/" = true) :
    containsStr (jsTrim query) "/" = true := by
  have hmem : '/' ∈ query.data := (of_decide_eq_true hdoi).subset (by decide)
  have hmem2 : '/' ∈ (jsTrim query).data :=
    mem_trimChars '/' (by decide) query.data hmem
  exact containsStr_of_mem (jsTrim query) '/' hmem2

theorem jsTrim_jsTrim_ne (query : String) (hq : (jsTrim query).data ≠ []) :
    (jsTrim (jsTrim query)).data ≠ [] := by
  rw [jsTrim_idem]
  exact hq

theorem doiStep_trace_eq (env : Env) (query : String)
    (hdoi : containsStr query "10.1101/" = true)
    (hq : (jsTrim query).data ≠ []) :
    (doiStep env query).2 = [.lookup .biorxiv (jsTrim query)] := by
  have hsl := jsTrim_slash query hdoi
  have hne := jsTrim_jsTrim_ne query hq
  unfold doiStep
  cases he : env (.lookup .biorxiv (jsTrim query)) with
  | ok r =>
    rw [getPaperDetails_ok env (jsTrim query) r hne hsl he]
    cases hc : r.collection with
    | none => simp [hdoi, hc]
    | some l => simp [hdoi, hc]
  | error e =>
    rw [getPaperDetails_err env (jsTrim query) e hne hsl he]
    simp [hdoi]

theorem doiStep_some (env : Env) (query : String) (r : ApiResponse) (l : List Paper)
    (hdoi : containsStr query "10.1101/" = true)
    (hq : (jsTrim query).data ≠ [])
    (he : env (.lookup .biorxiv (jsTrim query)) = .ok r)
    (hc : r.collection = some l) (hl : l ≠ []) :
    (doiStep env query).1 = some r := by
  have hsl := jsTrim_slash query hdoi
  have hne := jsTrim_jsTrim_ne query hq
  have hle : l.isEmpty = false := by
    cases h : l with
    | nil => exact absurd h hl
    | cons a t => rfl
  unfold doiStep
  rw [getPaperDetails_ok env (jsTrim query) r hne hsl he]
  simp [hdoi, hc, hle]

/-- C3 counterexample: the DOI short-circuit is NOT independent of the
primary fetch's outcome. For the query "10.1101/abc" (which contains the
DOI-like pattern) under an environment whose primary fetch fails with a
network error, the call raises without ever attempting the direct lookup:
the trace holds only the primary listing request. -/
theorem searchPapers_doi_counterexample :
    containsStr "10.1101/abc" "10.1101/" = true
    ∧ searchPapers (fun _ => .error .netError) "2025-10-12" "2020-10-12"
        "10.1101/abc" none none 25 none =
      ⟨.error (wrapSearch (errMsg .netError)),
       [Request.listing .biorxiv "2020-10-12" "2025-10-12"
         ⟨none, some "10.1101/abc", some 25⟩]⟩ := by
  exact ⟨rfl, rfl⟩

/-- C3 (amended): provided the primary fetch succeeded, a query containing
the DOI-like pattern "10.1101/" always triggers the direct lookup for the
trimmed query, regardless of the primary result's content; if that lookup
returns a non-empty collection, its response is the call's entire result,
superseding the primary fetch; if the short-circuit does not fire (lookup
failed or returned an empty or missing collection), the call falls through
to the category-based scoring stage of the primary response. If the primary
fetch itself fails, no lookup is attempted (see the counterexample). -/
theorem searchPapers_doi_shortCircuit (env : Env) (today fiveYearsAgo query : String)
    (fromDate toDate : Option String) (limit : Nat) (cursor : Option String)
    (resp : ApiResponse)
    (hq : (jsTrim query).data ≠ [])
    (hf : dateOk fromDate = true) (ht : dateOk toDate = true)
    (henv : env (primaryRequest query fiveYearsAgo today fromDate toDate limit cursor)
      = .ok resp)
    (hdoi : containsStr query "10.1101/" = true) :
    Request.lookup .biorxiv (jsTrim query)
      ∈ (searchPapers env today fiveYearsAgo query fromDate toDate limit cursor).trace
    ∧ (∀ (r : ApiResponse) (l : List Paper),
        env (.lookup .biorxiv (jsTrim query)) = .ok r → r.collection = some l →
        l ≠ [] →
        (searchPapers env today fiveYearsAgo query fromDate toDate limit cursor).result
          = .ok r)
    ∧ ((doiStep env query).1 = none →
        (searchPapers env today fiveYearsAgo query fromDate toDate limit cursor).result
          = (filterStage env today fiveYearsAgo query (strOr cursor "0")
              (primaryParams query limit cursor).2 resp).result) := by
  refine ⟨?_, ?_, ?_⟩
  · cases hds : (doiStep env query).1 with
    | none =>
      rw [searchPapers_core_none env today fiveYearsAgo query fromDate toDate limit
        cursor resp hq hf ht henv hds]
      rw [doiStep_trace_eq env query hdoi hq]
      simp
    | some r =>
      rw [searchPapers_core_some env today fiveYearsAgo query fromDate toDate limit
        cursor resp r hq hf ht henv hds]
      rw [doiStep_trace_eq env query hdoi hq]
      simp
  · intro r l he hc hl
    have hds := doiStep_some env query r l hdoi hq he hc hl
    rw [searchPapers_core_some env today fiveYearsAgo query fromDate toDate limit
      cursor resp r hq hf ht henv hds]
  · intro hds
    rw [searchPapers_core_none env today fiveYearsAgo query fromDate toDate limit
      cursor resp hq hf ht henv hds]

/-- Witness for C3 (amended): at a concrete call whose lookup returns one
record, the lookup request is attempted and its response is the final
result. -/
theorem searchPapers_doi_shortCircuit_witness :
    (let p : Paper := ⟨"10.1101/abc", "t", "a", "b", "c", "d", "e", "2020-01-01"⟩
     let env : Env := fun r =>
       if r = Request.lookup .biorxiv "10.1101/abc" then .ok ⟨[], some [p]⟩
       else .ok ⟨[], none⟩
     Request.lookup .biorxiv (jsTrim "10.1101/abc")
       ∈ (searchPapers env "2025-10-12" "2020-10-12" "10.1101/abc"
           none none 25 none).trace
     ∧ (searchPapers env "2025-10-12" "2020-10-12" "10.1101/abc"
         none none 25 none).result = .ok ⟨[], some [p]⟩) := by
  refine ⟨?_, ?_⟩
  · exact (searchPapers_doi_shortCircuit _ "2025-10-12" "2020-10-12" "10.1101/abc"
      none none 25 none ⟨[], none⟩ (by decide) rfl rfl (by decide) (by decide)).1
  · exact (searchPapers_doi_shortCircuit _ "2025-10-12" "2020-10-12" "10.1101/abc"
      none none 25 none ⟨[], none⟩ (by decide) rfl rfl (by decide) (by decide)).2.1
      ⟨[], some [⟨"10.1101/abc", "t", "a", "b", "c", "d", "e", "2020-01-01"⟩]⟩
      [⟨"10.1101/abc", "t", "a", "b", "c", "d", "e", "2020-01-01"⟩]
      (by decide) rfl (by decide)

theorem filterStage_fallback (env : Env) (today fiveYearsAgo query cursorValue : String)
    (params : Params) (resp bioResp medResp : ApiResponse) (coll : List Paper)
    (hcoll : resp.collection = some coll)
    (hempty : filterAndSort query coll = [])
    (henvB : env (.listing .biorxiv "2013-01-01" today
        ⟨params.cursor, some (underscore query), params.limit⟩) = .ok bioResp)
    (henvM : env (.listing .medrxiv fiveYearsAgo today
        ⟨none, some (underscore query), none⟩) = .ok medResp) :
    (filterStage env today fiveYearsAgo query cursorValue params resp).trace
      = [.listing .biorxiv "2013-01-01" today
          ⟨params.cursor, some (underscore query), params.limit⟩,
         .listing .medrxiv fiveYearsAgo today ⟨none, some (underscore query), none⟩]
    ∧ (filterAndSort query (bioResp.collection.getD [] ++ medResp.collection.getD [])
        ≠ [] →
        (filterStage env today fiveYearsAgo query cursorValue params resp).result
          = .ok ⟨[⟨"ok",
              (filterAndSort query
                (bioResp.collection.getD [] ++ medResp.collection.getD [])).length,
              cursorValue, ""⟩],
             some (filterAndSort query
               (bioResp.collection.getD [] ++ medResp.collection.getD []))⟩)
    ∧ (filterAndSort query (bioResp.collection.getD [] ++ medResp.collection.getD [])
        = [] →
        (filterStage env today fiveYearsAgo query cursorValue params resp).result
          = .ok ⟨[⟨(resp.messages.headD ⟨"", 0, "", ""⟩).status, 0, cursorValue,
              (resp.messages.headD ⟨"", 0, "", ""⟩).text⟩], some []⟩) := by
  unfold filterStage
  simp only [hcoll, hempty, List.isEmpty_nil, if_true, henvB, henvM]
  by_cases hme : (bioResp.collection.getD [] ++ medResp.collection.getD []).isEmpty
  · have hm0 : bioResp.collection.getD [] ++ medResp.collection.getD [] = [] :=
      List.isEmpty_iff.mp hme
    refine ⟨by simp [hme], ?_, ?_⟩
    · intro hbf
      exact absurd (by rw [hm0]; rfl) hbf
    · intro _
      simp [hme, List.length_nil]
  · by_cases hbf : (filterAndSort query
      (bioResp.collection.getD [] ++ medResp.collection.getD [])).isEmpty
    · have hbf0 := List.isEmpty_iff.mp hbf
      refine ⟨by simp [hme, hbf], ?_, ?_⟩
      · intro hne
        exact absurd hbf0 hne
      · intro _
        simp [hme, hbf, List.length_nil]
    · have hbfne : filterAndSort query
        (bioResp.collection.getD [] ++ medResp.collection.getD []) ≠ [] := by
        intro h0
        rw [h0] at hbf
        exact hbf List.isEmpty_nil
      refine ⟨by simp [hme, hbf], ?_, ?_⟩
      · intro _
        simp [hme, hbf]
      · intro h0
        exact absurd h0 hbfne

/-- C4: when the primary fetch produced a collection but score filtering
left nothing (and the DOI short-circuit did not apply), the orchestrator
issues exactly two additional listing requests — bioRxiv from the fixed
epoch 2013-01-01 to today (keeping the previous cursor/limit parameters but
re-categorised to the underscored raw query) and medRxiv over the default
five-year window with only that category — merges the two raw collections,
re-scores and filters the merged set, and returns it with rebuilt pagination
metadata when non-empty; when everything still yields nothing the call
returns the empty filtered result with total zero. -/
theorem searchPapers_fallback (env : Env) (today fiveYearsAgo query : String)
    (fromDate toDate : Option String) (limit : Nat) (cursor : Option String)
    (resp bioResp medResp : ApiResponse) (coll : List Paper)
    (hq : (jsTrim query).data ≠ [])
    (hf : dateOk fromDate = true) (ht : dateOk toDate = true)
    (henv : env (primaryRequest query fiveYearsAgo today fromDate toDate limit cursor)
      = .ok resp)
    (hcoll : resp.collection = some coll)
    (hds : (doiStep env query).1 = none)
    (hempty : filterAndSort query coll = [])
    (henvB : env (.listing .biorxiv "2013-01-01" today
        ⟨(primaryParams query limit cursor).2.cursor, some (underscore query),
         (primaryParams query limit cursor).2.limit⟩) = .ok bioResp)
    (henvM : env (.listing .medrxiv fiveYearsAgo today
        ⟨none, some (underscore query), none⟩) = .ok medResp) :
    (searchPapers env today fiveYearsAgo query fromDate toDate limit cursor).trace
      = primaryRequest query fiveYearsAgo today fromDate toDate limit cursor
        :: (doiStep env query).2
        ++ [.listing .biorxiv "2013-01-01" today
             ⟨(primaryParams query limit cursor).2.cursor, some (underscore query),
              (primaryParams query limit cursor).2.limit⟩,
            .listing .medrxiv fiveYearsAgo today ⟨none, some (underscore query), none⟩]
    ∧ (filterAndSort query (bioResp.collection.getD [] ++ medResp.collection.getD [])
        ≠ [] →
        (searchPapers env today fiveYearsAgo query fromDate toDate limit cursor).result
          = .ok ⟨[⟨"ok",
              (filterAndSort query
                (bioResp.collection.getD [] ++ medResp.collection.getD [])).length,
              strOr cursor "0", ""⟩],
             some (filterAndSort query
               (bioResp.collection.getD [] ++ medResp.collection.getD []))⟩)
    ∧ (filterAndSort query (bioResp.collection.getD [] ++ medResp.collection.getD [])
        = [] →
        (searchPapers env today fiveYearsAgo query fromDate toDate limit cursor).result
          = .ok ⟨[⟨(resp.messages.headD ⟨"", 0, "", ""⟩).status, 0, strOr cursor "0",
              (resp.messages.headD ⟨"", 0, "", ""⟩).text⟩], some []⟩) := by
  obtain ⟨htr, h1, h2⟩ := filterStage_fallback env today fiveYearsAgo query
    (strOr cursor "0") (primaryParams query limit cursor).2 resp bioResp medResp coll
    hcoll hempty henvB henvM
  rw [searchPapers_core_none env today fiveYearsAgo query fromDate toDate limit
    cursor resp hq hf ht henv hds]
  exact ⟨by rw [htr], h1, h2⟩

/-- Witness for C4 at a concrete call: with every upstream response empty,
the two fallback listings are issued and the call ends with the empty
result, total zero. -/
theorem searchPapers_fallback_witness :
    (searchPapers (fun _ => .ok ⟨[], some []⟩) "2025-10-12" "2020-10-12" "zzz"
        none none 25 none).trace
      = primaryRequest "zzz" "2020-10-12" "2025-10-12" none none 25 none
        :: (doiStep (fun _ => .ok ⟨[], some []⟩) "zzz").2
        ++ [.listing .biorxiv "2013-01-01" "2025-10-12"
             ⟨(primaryParams "zzz" 25 none).2.cursor, some (underscore "zzz"),
              (primaryParams "zzz" 25 none).2.limit⟩,
            .listing .medrxiv "2020-10-12" "2025-10-12"
             ⟨none, some (underscore "zzz"), none⟩]
    ∧ (searchPapers (fun _ => .ok ⟨[], some []⟩) "2025-10-12" "2020-10-12" "zzz"
        none none 25 none).result
      = .ok ⟨[⟨"", 0, "0", ""⟩], some []⟩ := by
  have h := searchPapers_fallback (fun _ => .ok ⟨[], some []⟩) "2025-10-12"
    "2020-10-12" "zzz" none none 25 none ⟨[], some []⟩ ⟨[], some []⟩ ⟨[], some []⟩ []
    (by decide) rfl rfl rfl rfl rfl rfl rfl rfl
  exact ⟨h.1, h.2.2 rfl⟩
